import Mathlib

/-!
# Verification of `scripts/calibrate_thresholds.py`

A shallow embedding of the LiBoard threshold-calibration script.  Serial
input is modelled as lists of byte lists (one byte list per received line,
one list of lines per retry attempt); the blocking reads of `main` are
modelled as a stream `Nat → Except CalErr (List Int)` of snapshot-read
outcomes.  Python `int(x)` truncation toward zero is `Int.tdiv`; Python
`round` (banker's rounding) on the exact rational mean is
`round_half_even`.  Float rounding of `statistics.mean` is below the
granularity of this model: all arithmetic is exact.
-/

set_option maxRecDepth 100000

/-- Typed errors of the script: the two `TimeoutError`s raised by
`_read_snapshot` / `_read_thresholds` exhausting their retries. -/
inductive CalErr where
  | snapshotTimeout
  | thresholdTimeout
  deriving DecidableEq

/-- ASCII codes Python's `str.strip` removes (space, tab, LF, CR, VT, FF). -/
def isPyWs (b : Nat) : Bool :=
  b = 32 || b = 9 || b = 10 || b = 13 || b = 11 || b = 12

/-- `bytes.decode('ascii', errors='strict')`: succeeds iff every byte < 128. -/
def decode_ascii (line : List Nat) : Option (List Nat) :=
  if line.all (fun b => b < 128) then some line else none

/-- Python `str.strip()`: drop whitespace from both ends. -/
def pyStrip (s : List Nat) : List Nat :=
  ((s.dropWhile isPyWs).reverse.dropWhile isPyWs).reverse

/-- Digit-string value: `some n` iff the token is a nonempty run of ASCII digits. -/
def parseDigits : List Nat → Option Nat
  | [] => none
  | [b] => if 48 ≤ b ∧ b ≤ 57 then some (b - 48) else none
  | b :: rest =>
      if 48 ≤ b ∧ b ≤ 57 then
        (parseDigits rest).map (fun n => (b - 48) * 10 ^ rest.length + n)
      else none

/-- Python `int(token)`: optional surrounding whitespace, optional sign,
then a nonempty digit run (underscore grouping is not modelled). -/
def pyInt (tok : List Nat) : Option Int :=
  match pyStrip tok with
  | 43 :: rest => (parseDigits rest).map (fun n => (n : Int))
  | 45 :: rest => (parseDigits rest).map (fun n => -(n : Int))
  | t => (parseDigits t).map (fun n => (n : Int))

/-- The list comprehension `[int(p) for p in parts]`: all tokens convert,
or the whole conversion raises (`none`). -/
def pyIntList : List (List Nat) → Option (List Int)
  | [] => some []
  | p :: ps =>
      match pyInt p, pyIntList ps with
      | some v, some vs => some (v :: vs)
      | _, _ => none

/-- One line of the `'?'` exchange (`_read_snapshot` body): decode as ASCII,
strip, split on commas, require exactly 64 fields, convert each to `int`.
Any failure makes the line malformed (`none`). -/
def parse_snapshot_line (line : List Nat) : Option (List Int) :=
  match decode_ascii line with
  | none => none
  | some bs =>
      let parts := (pyStrip bs).splitOn 44
      if parts.length = 64 then pyIntList parts else none

/-- One line of the `'!'` exchange (`_read_thresholds` body): decode, strip,
split on commas dropping empty fields, accept 1 field (global) or 64 fields
(per-square); `is_global` is whether exactly one value was parsed. -/
def parse_threshold_line (line : List Nat) : Option (List Int × Bool) :=
  match decode_ascii line with
  | none => none
  | some bs =>
      let parts := ((pyStrip bs).splitOn 44).filter (fun p => p ≠ [])
      if parts.length = 1 ∨ parts.length = 64 then
        (pyIntList parts).map (fun vals => (vals, vals.length == 1))
      else none

/-- `_read_snapshot`: each element of `attempts` is the list of lines received
within one attempt's timeout window.  The first line of an attempt that parses
as a snapshot is returned; an attempt whose lines are all malformed consumes
one retry; exhausting all attempts raises `TimeoutError`. -/
def read_snapshot : List (List (List Nat)) → Except CalErr (List Int)
  | [] => .error .snapshotTimeout
  | att :: rest =>
      match att.findSome? parse_snapshot_line with
      | some vals => .ok vals
      | none => read_snapshot rest

/-- `_read_thresholds`: same retry structure as `read_snapshot` with the
threshold line parser, raising its own `TimeoutError` on exhaustion. -/
def read_thresholds : List (List (List Nat)) → Except CalErr (List Int × Bool)
  | [] => .error .thresholdTimeout
  | att :: rest =>
      match att.findSome? parse_threshold_line with
      | some r => .ok r
      | none => read_thresholds rest

/-- `main` lines 182–186: the initial `_read_thresholds` call is wrapped in
`try/except`; on any exception the session continues with the conservative
fallback `([0]*64, False)` instead of aborting. -/
def detect_mode (r : Except CalErr (List Int × Bool)) : List Int × Bool :=
  match r with
  | .ok p => p
  | .error _ => (List.replicate 64 0, false)

/-- `_average_readings`: per-channel bucket of the successive snapshot values,
then `int(statistics.mean(bucket))` — the exact mean truncated toward zero. -/
def average_readings (snaps : List (List Int)) : List Int :=
  (List.range 64).map (fun i =>
    Int.tdiv ((snaps.map (fun s => s.getD i 0)).sum) (snaps.length : Int))

/-- `main` lines 245–246 / 272–274: `hi, lo = max(e, o), min(e, o);
int((hi + lo) / 2)` — the midpoint truncated toward zero. -/
def per_channel_threshold (e o : Int) : Int :=
  Int.tdiv (max e o + min e o) 2

/-- Python's `round` on the exact rational `a / b` (for `b > 0`):
round half to even. -/
def round_half_even (a b : Int) : Int :=
  if 2 * (a % b) < b then a / b
  else if b < 2 * (a % b) then a / b + 1
  else if (a / b) % 2 = 0 then a / b else a / b + 1

/-- `main` lines 282–285: keep the strictly positive thresholds; if none,
`SystemExit("No thresholds collected...")`; else `int(round(mean(nonzero)))`. -/
def global_from_thresholds (ths : List Int) : Except String Int :=
  let nonzero := ths.filter (fun t => 0 < t)
  if nonzero.isEmpty then .error "No thresholds collected to compute a global value."
  else .ok (round_half_even nonzero.sum (nonzero.length : Int))

/-- `main` line 209: `[th_vals[0]] * 64 if board_is_global else list(th_vals)`. -/
def init_thresholds (thVals : List Int) (isGlobal : Bool) : List Int :=
  if isGlobal then List.replicate 64 (thVals.headD 0) else thVals

/-- `main` line 230: rank-major square index `(rank - 1) * 8 + file`. -/
def sqIndex (file rank : Nat) : Nat :=
  (rank - 1) * 8 + file

/-- `sqIndex` restricted to its domain: file 0..7, rank 1..8 (rank stored
as `r.val + 1` for `r : Fin 8`), landing in 0..63. -/
def sqIndexFin (p : Fin 8 × Fin 8) : Fin 64 :=
  ⟨sqIndex p.1.val (p.2.val + 1), by
    have h1 := p.1.isLt
    have h2 := p.2.isLt
    simp only [sqIndex]
    omega⟩

/-- `main` lines 226–246 (squares path): for each target index, one snapshot
is taken; `occupied[idx] = vals[idx]` and
`thresholds[idx] = per_channel_threshold(empty[idx], occupied[idx])`. -/
def calibrate_squares : List Nat → List (List Int) → List Int → List Int → List Int
  | idx :: targets, vals :: caps, empty, ths =>
      calibrate_squares targets caps empty
        (ths.set idx (per_channel_threshold (empty.getD idx 0) (vals.getD idx 0)))
  | _, _, _, ths => ths

/-- `main` lines 250–274, one iteration: rank `r0 + 1` uses indices
`r0 * 8 + k` for `k < 8`, all read from the same single snapshot. -/
def calibrate_rank_step (empty : List Int) (ths : List Int) (r0 : Nat)
    (vals : List Int) : List Int :=
  (List.range 8).foldl (fun acc k =>
    acc.set (r0 * 8 + k) (per_channel_threshold
      (empty.getD (r0 * 8 + k) 0) (vals.getD (r0 * 8 + k) 0))) ths

/-- `main` lines 250–274 (rank path): eight iterations of
`calibrate_rank_step`, one snapshot each. -/
def calibrate_ranks (empty th0 : List Int) (rankSnaps : List (List Int)) : List Int :=
  ((List.range rankSnaps.length).zip rankSnaps).foldl
    (fun acc rv => calibrate_rank_step empty acc rv.1 rv.2) th0

/-- `main` lines 292–296: re-emit `thresholds` in rank-major output order
(`idx = rank * 8 + file`) — the payload of the per-channel push. -/
def reorder_output (ths : List Int) : List Int :=
  (List.range 8).flatMap (fun rank =>
    (List.range 8).map (fun file => ths.getD (rank * 8 + file) 0))

/-- Consume `n` successive snapshot-read outcomes starting at position
`start`; stop at the first raised error.  Second component counts the
`_read_snapshot` calls actually made. -/
def collect (snaps : Nat → Except CalErr (List Int)) (start : Nat) :
    Nat → Except CalErr (List (List Int)) × Nat
  | 0 => (.ok [], 0)
  | n + 1 =>
      match snaps start with
      | .error e => (.error e, 1)
      | .ok v =>
          match collect snaps (start + 1) n with
          | (.ok vs, k) => (.ok (v :: vs), k + 1)
          | (.error e, k) => (.error e, k + 1)

/-- How a calibration session ends. -/
inductive Outcome where
  | unsupportedMode
  | aborted (e : CalErr)
  | pushedGlobal (v : Int)
  | pushedIndividual (vs : List Int)
  | noThresholds
  deriving DecidableEq

/-- `main` lines 278–300: global mode averages the positive thresholds and
pushes one value; per-square mode pushes the reordered 64-entry payload. -/
def finish_push (isGlobal : Bool) (ths : List Int) (used : Nat) : Outcome × Nat :=
  if isGlobal then
    match global_from_thresholds ths with
    | .error _ => (.noThresholds, used)
    | .ok v => (.pushedGlobal v, used)
  else (.pushedIndividual (reorder_output ths), used)

/-- `main` lines 181–300 as a function of the initial threshold-read outcome,
whether `-s` named squares (`squaresArg`), the parsed target indices, the
stream of snapshot-read outcomes, and the baseline sample count.  The second
component counts snapshot reads performed.  An uncaught `TimeoutError` from a
snapshot read aborts the session. -/
def run_session (thRes : Except CalErr (List Int × Bool)) (squaresArg : Bool)
    (targets : List Nat) (snaps : Nat → Except CalErr (List Int))
    (nSamples : Nat) : Outcome × Nat :=
  let m := detect_mode thRes
  if m.2 && squaresArg then (.unsupportedMode, 0)
  else
    match collect snaps 0 nSamples with
    | (.error e, k) => (.aborted e, k)
    | (.ok baseSnaps, k) =>
        let empty := average_readings baseSnaps
        let th0 := init_thresholds m.1 m.2
        if squaresArg then
          match collect snaps nSamples targets.length with
          | (.error e, k2) => (.aborted e, k + k2)
          | (.ok caps, k2) =>
              finish_push m.2 (calibrate_squares targets caps empty th0) (k + k2)
        else
          match collect snaps nSamples 8 with
          | (.error e, k2) => (.aborted e, k + k2)
          | (.ok rankSnaps, k2) =>
              finish_push m.2 (calibrate_ranks empty th0 rankSnaps) (k + k2)

/-- Result of `push_threshold_individual`: either the pre-write length check
raised `ValueError`, or the try block ran with the recorded writes, a
mid-write transport failure being caught and downgraded to a warning. -/
inductive PushOutcome where
  | raisedValueError (writes : List String)
  | pushed (writes : List String)
  | warned (writes : List String)
  deriving DecidableEq

/-- `push_threshold_individual` lines 125–145: `ValueError` unless exactly 64
values, raised before the try block writes anything; inside the try block the
writes are `'c'` then the CSV payload line, and a transport exception after
`okWrites` successful writes is caught and reported as a warning. -/
def push_threshold_individual (values : List Int) (okWrites : Nat) : PushOutcome :=
  if values.length ≠ 64 then .raisedValueError []
  else
    let csvLine := String.intercalate "," (values.map toString) ++ "\n"
    let writes := ["c", csvLine]
    if writes.length ≤ okWrites then .pushed writes
    else .warned (writes.take okWrites)

/-- Modelled from the spec: the AutoDetect occupancy strategy (§4.5) is
absent from `src/` — the script there implements only the manual-trigger
strategy.  Faithful to the spec's words: poll snapshots until
`baseline[idx] - snapshot[idx] > dropThreshold`, then sample for the settle
window, tracking and returning the minimum value observed during that
window.  `poll` are the channel's values seen while polling, `settle` those
seen during the settle window; `none` when no drop is ever detected (or the
window produced no sample). -/
def autoDetectOccupied (baseline dropThreshold : Int) (poll : List Int)
    (settle : List Int) : Option Int :=
  if poll.any (fun v => dropThreshold < baseline - v) then
    match settle with
    | [] => none
    | v :: rest => some (rest.foldl min v)
  else none

/-! ## Helper lemmas -/

theorem pyIntList_length : ∀ (parts : List (List Nat)) (v : List Int),
    pyIntList parts = some v → v.length = parts.length := by
  intro parts
  induction parts with
  | nil => intro v h; simp [pyIntList] at h; simp [← h]
  | cons p ps ih =>
      intro v h
      simp only [pyIntList] at h
      cases hp : pyInt p with
      | none => rw [hp] at h; exact absurd h (by simp)
      | some x =>
          cases hps : pyIntList ps with
          | none => rw [hp, hps] at h; exact absurd h (by simp)
          | some xs =>
              rw [hp, hps] at h
              cases h
              simp [ih xs hps]

theorem read_snapshot_all_malformed : ∀ (attempts : List (List (List Nat))),
    (∀ att ∈ attempts, ∀ l ∈ att, parse_snapshot_line l = none) →
    read_snapshot attempts = .error .snapshotTimeout := by
  intro attempts
  induction attempts with
  | nil => intro _; rfl
  | cons att rest ih =>
      intro h
      have h1 : att.findSome? parse_snapshot_line = none :=
        List.findSome?_eq_none_iff.mpr (h att (by simp))
      simp only [read_snapshot, h1]
      exact ih (fun a ha l hl => h a (by simp [ha]) l hl)

theorem read_thresholds_all_malformed : ∀ (attempts : List (List (List Nat))),
    (∀ att ∈ attempts, ∀ l ∈ att, parse_threshold_line l = none) →
    read_thresholds attempts = .error .thresholdTimeout := by
  intro attempts
  induction attempts with
  | nil => intro _; rfl
  | cons att rest ih =>
      intro h
      have h1 : att.findSome? parse_threshold_line = none :=
        List.findSome?_eq_none_iff.mpr (h att (by simp))
      simp only [read_thresholds, h1]
      exact ih (fun a ha l hl => h a (by simp [ha]) l hl)

theorem collect_count_ok (snaps : Nat → Except CalErr (List Int)) :
    ∀ (n start : Nat), (∀ i, i < n → ∃ v, snaps (start + i) = .ok v) →
    (collect snaps start n).2 = n := by
  intro n
  induction n with
  | zero => intro start _; rfl
  | succ m ih =>
      intro start h
      obtain ⟨v, hv⟩ := h 0 (by omega)
      rw [Nat.add_zero] at hv
      have hrest : ∀ i, i < m → ∃ w, snaps (start + 1 + i) = .ok w := by
        intro i hi
        have heq : start + 1 + i = start + (i + 1) := by omega
        rw [heq]
        exact h (i + 1) (by omega)
      have := ih (start + 1) hrest
      simp only [collect, hv]
      cases hc : collect snaps (start + 1) m with
      | mk c k =>
          rw [hc] at this
          cases c <;> simp_all

theorem collect_ok_full (snaps : Nat → Except CalErr (List Int)) :
    ∀ (n start : Nat), (∀ i, i < n → ∃ v, snaps (start + i) = .ok v) →
    ∃ vs, collect snaps start n = (.ok vs, n) := by
  intro n
  induction n with
  | zero => intro start _; exact ⟨[], rfl⟩
  | succ m ih =>
      intro start h
      obtain ⟨v, hv⟩ := h 0 (by omega)
      rw [Nat.add_zero] at hv
      have hrest : ∀ i, i < m → ∃ w, snaps (start + 1 + i) = .ok w := by
        intro i hi
        have heq : start + 1 + i = start + (i + 1) := by omega
        rw [heq]
        exact h (i + 1) (by omega)
      obtain ⟨vs, hc⟩ := ih (start + 1) hrest
      refine ⟨v :: vs, ?_⟩
      simp only [collect, hv, hc]

theorem collect_error_at (snaps : Nat → Except CalErr (List Int)) :
    ∀ (n start j : Nat) (e : CalErr),
    (∀ i, i < j → ∃ v, snaps (start + i) = .ok v) →
    snaps (start + j) = .error e → j < n →
    collect snaps start n = (.error e, j + 1) := by
  intro n
  induction n with
  | zero => intro start j e _ _ hj; omega
  | succ m ih =>
      intro start j e hok herr hj
      cases j with
      | zero =>
          rw [Nat.add_zero] at herr
          simp only [collect, herr]
      | succ jj =>
          obtain ⟨v, hv⟩ := hok 0 (by omega)
          rw [Nat.add_zero] at hv
          have hok2 : ∀ i, i < jj → ∃ w, snaps (start + 1 + i) = .ok w := by
            intro i hi
            have heq : start + 1 + i = start + (i + 1) := by omega
            rw [heq]
            exact hok (i + 1) (by omega)
          have herr2 : snaps (start + 1 + jj) = .error e := by
            have heq : start + 1 + jj = start + (jj + 1) := by omega
            rw [heq]
            exact herr
          have hc := ih (start + 1) jj e hok2 herr2 (by omega)
          simp only [collect, hv, hc]

theorem reorder_getD (ths : List Int) (i : Nat) (hi : i < 64) :
    (reorder_output ths).getD i 0 = ths.getD i 0 := by
  interval_cases i <;> rfl

theorem calibrate_squares_frame : ∀ (targets : List Nat) (caps : List (List Int))
    (empty th : List Int) (i : Nat), i ∉ targets →
    (calibrate_squares targets caps empty th).getD i 0 = th.getD i 0 := by
  intro targets
  induction targets with
  | nil => intro caps empty th i _; cases caps <;> rfl
  | cons idx rest ih =>
      intro caps empty th i hnot
      cases caps with
      | nil => rfl
      | cons vals cs =>
          have hne : idx ≠ i := fun h => hnot (by simp [h])
          have hstep : (th.set idx (per_channel_threshold (empty.getD idx 0)
              (vals.getD idx 0))).getD i 0 = th.getD i 0 := by
            simp [List.getD_eq_getElem?_getD, List.getElem?_set_ne hne]
          calc (calibrate_squares (idx :: rest) (vals :: cs) empty th).getD i 0
              = (calibrate_squares rest cs empty (th.set idx (per_channel_threshold
                  (empty.getD idx 0) (vals.getD idx 0)))).getD i 0 := rfl
            _ = th.getD i 0 := by
                rw [ih cs empty _ i (fun h => hnot (by simp [h]))]
                exact hstep

theorem foldl_min_le_init : ∀ (rest : List Int) (v : Int),
    rest.foldl min v ≤ v := by
  intro rest
  induction rest with
  | nil => intro v; exact le_refl v
  | cons w ws ih =>
      intro v
      calc (w :: ws).foldl min v = ws.foldl min (min v w) := rfl
        _ ≤ min v w := ih (min v w)
        _ ≤ v := min_le_left v w

theorem foldl_min_mem : ∀ (rest : List Int) (v : Int),
    rest.foldl min v = v ∨ rest.foldl min v ∈ rest := by
  intro rest
  induction rest with
  | nil => intro v; left; rfl
  | cons w ws ih =>
      intro v
      have h : (w :: ws).foldl min v = ws.foldl min (min v w) := rfl
      rcases ih (min v w) with h1 | h1
      · rcases min_choice v w with h2 | h2
        · left; rw [h, h1, h2]
        · right; rw [h, h1, h2]; simp
      · right; rw [h]; simp [h1]

theorem foldl_min_le_mem : ∀ (rest : List Int) (v w : Int), w ∈ rest →
    rest.foldl min v ≤ w := by
  intro rest
  induction rest with
  | nil => intro v w h; simp at h
  | cons u us ih =>
      intro v w h
      have hq : (u :: us).foldl min v = us.foldl min (min v u) := rfl
      rcases List.mem_cons.mp h with h1 | h1
      · rw [h1, hq]
        exact le_trans (foldl_min_le_init us (min v u)) (min_le_right v u)
      · rw [hq]; exact ih (min v u) w h1

theorem round_half_even_close (a b : Int) (hb : 0 < b) :
    -b ≤ 2 * (round_half_even a b * b - a) ∧
    2 * (round_half_even a b * b - a) ≤ b := by
  have hd : b * (a / b) + a % b = a := Int.ediv_add_emod a b
  have h0 : 0 ≤ a % b := Int.emod_nonneg a (by omega)
  have h1 : a % b < b := Int.emod_lt_of_pos a hb
  unfold round_half_even
  split_ifs with hc1 hc2 hc3 <;> constructor <;> nlinarith [hd, h0, h1]

theorem tdiv_floor_bounds (S n : Int) (hS : 0 ≤ S) (hn : 0 < n) :
    n * Int.tdiv S n ≤ S ∧ S < n * (Int.tdiv S n + 1) := by
  rw [Int.tdiv_eq_ediv hS (le_of_lt hn)]
  have hd : n * (S / n) + S % n = S := Int.ediv_add_emod S n
  have h0 : 0 ≤ S % n := Int.emod_nonneg S (by omega)
  have h1 : S % n < n := Int.emod_lt_of_pos S hn
  constructor <;> nlinarith [hd, h0, h1]

theorem avg_getD (snaps : List (List Int)) (i : Nat) (hi : i < 64) :
    (average_readings snaps).getD i 0 =
      Int.tdiv ((snaps.map (fun s => s.getD i 0)).sum) (snaps.length : Int) := by
  simp [average_readings, List.getD_eq_getElem?_getD, List.getElem?_map,
    List.getElem?_range, hi]

/-! ## Claim theorems -/

/-- C2: AutoDetect polls snapshots until `baseline - snapshot > dropThreshold`
(no drop means no detection), then returns the minimum value observed during
the settle window — an element of the window that bounds every sample from
below — not the value at the detection instant.  With baseline 500,
dropThreshold 50 and settle-window sequence `[500, 500, 440, 430, 445]` the
occupied reading is 430 (and in particular not the detection-instant 440). -/
theorem C2_autodetect_min_of_settle_window :
    (∀ (baseline drop : Int) (poll settle : List Int),
        (∀ w ∈ poll, baseline - w ≤ drop) →
        autoDetectOccupied baseline drop poll settle = none)
    ∧ (∀ (baseline drop : Int) (poll : List Int) (v : Int) (rest : List Int),
        (∃ w ∈ poll, drop < baseline - w) →
        ∃ m, autoDetectOccupied baseline drop poll (v :: rest) = some m
          ∧ m ∈ v :: rest ∧ ∀ w ∈ v :: rest, m ≤ w)
    ∧ autoDetectOccupied 500 50 [440] [500, 500, 440, 430, 445] = some 430
    ∧ autoDetectOccupied 500 50 [440] [500, 500, 440, 430, 445] ≠ some 440 := by
  refine ⟨?_, ?_, by decide, by decide⟩
  · intro baseline drop poll settle hall
    have hfalse : ¬ (poll.any (fun w => decide (drop < baseline - w)) = true) := by
      simp only [List.any_eq_true, decide_eq_true_eq]
      rintro ⟨w, hw, hlt⟩
      exact absurd hlt (not_lt.mpr (hall w hw))
    unfold autoDetectOccupied
    rw [if_neg hfalse]
  · intro baseline drop poll v rest hex
    have htrue : poll.any (fun w => decide (drop < baseline - w)) = true := by
      simp only [List.any_eq_true, decide_eq_true_eq]
      exact hex
    refine ⟨rest.foldl min v, ?_, ?_, ?_⟩
    · unfold autoDetectOccupied
      rw [if_pos htrue]
    · rcases foldl_min_mem rest v with h | h
      · rw [h]; simp
      · simp [h]
    · intro w hw
      rcases List.mem_cons.mp hw with h | h
      · rw [h]; exact foldl_min_le_init rest v
      · exact foldl_min_le_mem rest v w h

/-- C2 witness: the second conjunct applied to the spec's example. -/
theorem C2_witness :
    ∃ m, autoDetectOccupied 500 50 [440] [500, 500, 440, 430, 445] = some m
      ∧ m ∈ [500, 500, 440, 430, 445]
      ∧ ∀ w ∈ [500, 500, 440, 430, 445], m ≤ w :=
  C2_autodetect_min_of_settle_window.2.1 500 50 [440] 500 [500, 440, 430, 445]
    ⟨440, by decide, by decide⟩

/-- C4: the per-channel threshold is `floor((max + min) / 2)` of baseline and
occupied (for the script's non-negative ADC readings, `int()` truncation
coincides with floor), it is symmetric in its two arguments, and on equal
arguments it returns that value. -/
theorem C4_per_channel_midpoint :
    ∀ e o : Int,
      per_channel_threshold e o = per_channel_threshold o e
      ∧ (0 ≤ e → 0 ≤ o → per_channel_threshold e o = (e + o) / 2)
      ∧ per_channel_threshold e e = e := by
  intro e o
  refine ⟨?_, ?_, ?_⟩
  · simp [per_channel_threshold, max_comm, min_comm]
  · intro he ho
    have h : max e o + min e o = e + o := max_add_min e o
    have hnn : (0 : Int) ≤ e + o := by omega
    simp only [per_channel_threshold, h]
    exact Int.tdiv_eq_ediv hnn (by norm_num)
  · have h : max e e + min e e = 2 * e := by simp [two_mul]
    simp only [per_channel_threshold, h]
    exact Int.mul_tdiv_cancel_left e (by norm_num)

/-- C4 witness: baseline 500, occupied 430 — both orders give
`floor(930 / 2) = 465`. -/
theorem C4_witness :
    per_channel_threshold 500 430 = (500 + 430 : Int) / 2
    ∧ per_channel_threshold 500 430 = per_channel_threshold 430 500 :=
  ⟨(C4_per_channel_midpoint 500 430).2.1 (by norm_num) (by norm_num),
   (C4_per_channel_midpoint 500 430).1⟩

/-- C8: the rank-major channel mapping `idx = (rank - 1) * 8 + file` for
file 0..7 and rank 1..8 is a bijection onto 0..63. -/
theorem C8_square_index_bijective : Function.Bijective sqIndexFin := by
  decide

/-- C10: `push_threshold_individual` raises `ValueError` — with no transport
write performed — exactly when the list length differs from 64; with 64
values it never raises, and a transport failure mid-push only yields a
warning outcome. -/
theorem C10_push_individual_length_check :
    (∀ (values : List Int) (k : Nat), values.length ≠ 64 →
        push_threshold_individual values k = .raisedValueError [])
    ∧ (∀ (values : List Int) (k : Nat), values.length = 64 →
        (∀ w, push_threshold_individual values k ≠ .raisedValueError w)
        ∧ (k < 2 → ∃ w, push_threshold_individual values k = .warned w)) := by
  constructor
  · intro values k h
    simp [push_threshold_individual, h]
  · intro values k h
    constructor
    · intro w
      simp only [push_threshold_individual, h]
      split_ifs with h1 h2
      · exact absurd rfl h1
      · simp
      · simp
    · intro hk
      simp only [push_threshold_individual, h]
      split_ifs with h1 h2
      · exact absurd rfl h1
      · simp only [List.length_cons, List.length_nil] at h2
        omega
      · exact ⟨_, rfl⟩

/-- C10 witness: a 3-element list raises with no writes; with 64 values and
a transport failure after one write the outcome is only a warning. -/
theorem C10_witness :
    push_threshold_individual [1, 2, 3] 0 = .raisedValueError []
    ∧ ∃ w, push_threshold_individual (List.replicate 64 0) 1 = .warned w :=
  ⟨C10_push_individual_length_check.1 [1, 2, 3] 0 (by norm_num),
   (C10_push_individual_length_check.2 (List.replicate 64 0) 1 (by simp)).2 (by norm_num)⟩

/-- C3: within one `read_snapshot` attempt, a malformed line is skipped with
no effect on the retry budget; the first line parsing to exactly 64 integers
(after earlier all-malformed attempts, which each consume one retry) is
returned; all lines malformed across all attempts raises the snapshot
timeout; and a successfully parsed snapshot always has 64 entries. -/
theorem C3_snapshot_retry_policy :
    (∀ (bad : List Nat) (att : List (List Nat)) (rest : List (List (List Nat))),
        parse_snapshot_line bad = none →
        read_snapshot ((bad :: att) :: rest) = read_snapshot (att :: rest))
    ∧ (∀ (badAtts : List (List (List Nat))) (pre : List (List Nat))
          (line : List Nat) (suf : List (List Nat))
          (rest : List (List (List Nat))) (vals : List Int),
        (∀ att ∈ badAtts, ∀ l ∈ att, parse_snapshot_line l = none) →
        (∀ l ∈ pre, parse_snapshot_line l = none) →
        parse_snapshot_line line = some vals →
        read_snapshot (badAtts ++ (pre ++ line :: suf) :: rest) = .ok vals)
    ∧ (∀ attempts : List (List (List Nat)),
        (∀ att ∈ attempts, ∀ l ∈ att, parse_snapshot_line l = none) →
        read_snapshot attempts = .error .snapshotTimeout)
    ∧ (∀ (line : List Nat) (vals : List Int),
        parse_snapshot_line line = some vals → vals.length = 64) := by
  refine ⟨?_, ?_, read_snapshot_all_malformed, ?_⟩
  · intro bad att rest h
    simp [read_snapshot, List.findSome?_cons, h]
  · intro badAtts
    induction badAtts with
    | nil =>
        intro pre line suf rest vals _ hpre hline
        have hp : pre.findSome? parse_snapshot_line = none :=
          List.findSome?_eq_none_iff.mpr hpre
        have h1 : (pre ++ line :: suf).findSome? parse_snapshot_line = some vals := by
          rw [List.findSome?_append, hp, List.findSome?_cons, hline]
          rfl
        simp [read_snapshot, h1]
    | cons att rest2 ih =>
        intro pre line suf rest vals hbad hpre hline
        have h1 : att.findSome? parse_snapshot_line = none :=
          List.findSome?_eq_none_iff.mpr (hbad att (by simp))
        have h2 : read_snapshot ((att :: rest2) ++ (pre ++ line :: suf) :: rest)
            = read_snapshot (rest2 ++ (pre ++ line :: suf) :: rest) := by
          simp [read_snapshot, h1]
        rw [h2]
        exact ih pre line suf rest vals
          (fun a ha l hl => hbad a (by simp [ha]) l hl) hpre hline
  · intro line vals h
    simp only [parse_snapshot_line] at h
    cases hdec : decode_ascii line with
    | none => rw [hdec] at h; exact absurd h (by simp)
    | some bs =>
        rw [hdec] at h
        simp only [] at h
        by_cases hlen : ((pyStrip bs).splitOn 44).length = 64
        · rw [if_pos hlen] at h
          rw [pyIntList_length _ _ h, hlen]
        · rw [if_neg hlen] at h
          exact absurd h (by simp)

/-- The 64-zero CSV line `"0,0,...,0\n"` as ASCII bytes. -/
def csvZeros : List Nat := (List.replicate 63 [48, 44]).flatten ++ [48, 10]

/-- C3 witness: attempt 1 holds only a non-numeric line (one retry consumed);
attempt 2 holds a decode failure (byte 200), a wrong-field-count line
(`"2,x"`), then the valid 64-zero CSV, which is returned. -/
theorem C3_witness :
    read_snapshot ([[[97]]] ++ ([[200], [50, 44, 120]] ++ csvZeros :: []) :: [[]])
      = .ok (List.replicate 64 0) :=
  C3_snapshot_retry_policy.2.1 [[[97]]] [[200], [50, 44, 120]] csvZeros [] [[]]
    (List.replicate 64 0) (by decide) (by decide) (by rfl)

/-- C5: the global threshold derived from a threshold array is within half of
the arithmetic mean of its strictly-positive entries — an integer nearest the
mean — with `[0, 40, 0, 60]` yielding 50, while an array with no positive
entry fails with the no-thresholds-collected error instead of producing 0. -/
theorem C5_global_threshold_mean :
    (∀ ths : List Int, ths.filter (fun t => 0 < t) = [] →
        global_from_thresholds ths
          = .error "No thresholds collected to compute a global value.")
    ∧ (∀ (ths : List Int) (g : Int), global_from_thresholds ths = .ok g →
        ths.filter (fun t => 0 < t) ≠ []
        ∧ -(((ths.filter (fun t => 0 < t)).length : Int))
            ≤ 2 * (g * ((ths.filter (fun t => 0 < t)).length : Int)
                - (ths.filter (fun t => 0 < t)).sum)
        ∧ 2 * (g * ((ths.filter (fun t => 0 < t)).length : Int)
                - (ths.filter (fun t => 0 < t)).sum)
            ≤ (((ths.filter (fun t => 0 < t)).length : Int)))
    ∧ global_from_thresholds [0, 40, 0, 60] = .ok 50 := by
  refine ⟨?_, ?_, by rfl⟩
  · intro ths h
    simp [global_from_thresholds, h]
  · intro ths g hg
    by_cases hemp : (ths.filter (fun t => 0 < t)).isEmpty
    · simp [global_from_thresholds, hemp] at hg
    · have hg2 : round_half_even (ths.filter (fun t => 0 < t)).sum
          ((ths.filter (fun t => 0 < t)).length : Int) = g := by
        simp only [global_from_thresholds, hemp, Bool.false_eq_true,
          if_false] at hg
        exact Except.ok.inj hg
      have hne : ths.filter (fun t => 0 < t) ≠ [] := by
        simpa [List.isEmpty_iff] using hemp
      have hpos : 0 < ((ths.filter (fun t => 0 < t)).length : Int) := by
        exact_mod_cast List.length_pos.mpr hne
      have hc := round_half_even_close (ths.filter (fun t => 0 < t)).sum
        ((ths.filter (fun t => 0 < t)).length : Int) hpos
      rw [hg2] at hc
      exact ⟨hne, hc.1, hc.2⟩

/-- C5 witness: the nearest-mean bounds applied to `[0, 40, 0, 60]`,
whose positive entries average exactly 50. -/
theorem C5_witness :
    [0, 40, 0, 60].filter (fun t : Int => 0 < t) ≠ []
    ∧ -((([0, 40, 0, 60].filter (fun t : Int => 0 < t)).length : Int))
        ≤ 2 * (50 * (([0, 40, 0, 60].filter (fun t : Int => 0 < t)).length : Int)
            - ([0, 40, 0, 60].filter (fun t : Int => 0 < t)).sum)
    ∧ 2 * (50 * (([0, 40, 0, 60].filter (fun t : Int => 0 < t)).length : Int)
            - ([0, 40, 0, 60].filter (fun t : Int => 0 < t)).sum)
        ≤ ((([0, 40, 0, 60].filter (fun t : Int => 0 < t)).length : Int)) :=
  C5_global_threshold_mean.2.1 [0, 40, 0, 60] 50 (by rfl)

/-- C6: the baseline averager performs exactly `n` snapshot reads when all
succeed; each channel's baseline is the per-channel sum divided by `n`
rounded toward zero (for non-negative readings: the floor, witnessed by the
`n·r ≤ S < n·(r+1)` bracketing); channel readings `[10, 20, 30]` average to
20 and `[10, 10, 11]` truncate to 10. -/
theorem C6_averager_truncated_mean :
    (∀ (snapsF : Nat → Except CalErr (List Int)) (start n : Nat),
        (∀ i, i < n → ∃ v, snapsF (start + i) = Except.ok v) →
        (collect snapsF start n).2 = n)
    ∧ (∀ (snaps : List (List Int)) (i : Nat), i < 64 → 0 < snaps.length →
        0 ≤ (snaps.map (fun s => s.getD i 0)).sum →
        ((snaps.length : Int) * (average_readings snaps).getD i 0
            ≤ (snaps.map (fun s => s.getD i 0)).sum
          ∧ (snaps.map (fun s => s.getD i 0)).sum
            < (snaps.length : Int) * ((average_readings snaps).getD i 0 + 1)))
    ∧ average_readings [List.replicate 64 10, List.replicate 64 20,
        List.replicate 64 30] = List.replicate 64 20
    ∧ average_readings [List.replicate 64 10, List.replicate 64 10,
        List.replicate 64 11] = List.replicate 64 10 := by
  refine ⟨?_, ?_, by rfl, by rfl⟩
  · intro snapsF start n h
    exact collect_count_ok snapsF n start h
  · intro snaps i hi hlen hsum
    rw [avg_getD snaps i hi]
    exact tdiv_floor_bounds _ _ hsum (by exact_mod_cast hlen)

/-- C6 witness: fifteen successful reads are exactly fifteen calls, and the
truncation bracketing at channel 0 of the `[10, 10, 11]` example. -/
theorem C6_witness :
    (collect (fun _ => Except.ok ([] : List Int)) 0 15).2 = 15
    ∧ ((3 : Int) * (average_readings [List.replicate 64 10, List.replicate 64 10,
          List.replicate 64 11]).getD 0 0
        ≤ ([List.replicate 64 (10:Int), List.replicate 64 10,
            List.replicate 64 11].map (fun s => s.getD 0 0)).sum
      ∧ ([List.replicate 64 (10:Int), List.replicate 64 10,
            List.replicate 64 11].map (fun s => s.getD 0 0)).sum
        < (3 : Int) * ((average_readings [List.replicate 64 10, List.replicate 64 10,
            List.replicate 64 11]).getD 0 0 + 1)) :=
  ⟨C6_averager_truncated_mean.1 (fun _ => Except.ok []) 0 15 (fun _ _ => ⟨[], rfl⟩),
   C6_averager_truncated_mean.2.1 [List.replicate 64 10, List.replicate 64 10,
      List.replicate 64 11] 0 (by norm_num) (by norm_num) (by decide)⟩

/-- C7: a threshold response parsing to one field means Global mode and one
parsing to 64 fields means per-channel mode; and whenever the detected mode
is Global and the caller restricted the squares to calibrate, the session
ends with the unsupported-mode rejection after zero snapshot reads — before
baseline capture. -/
theorem C7_global_mode_rejects_subset :
    (∀ (line : List Nat) (vals : List Int) (g : Bool),
        parse_threshold_line line = some (vals, g) →
        ((vals.length = 1 ∧ g = true) ∨ (vals.length = 64 ∧ g = false)))
    ∧ (∀ (thRes : Except CalErr (List Int × Bool)) (targets : List Nat)
          (snaps : Nat → Except CalErr (List Int)) (n : Nat),
        (detect_mode thRes).2 = true →
        run_session thRes true targets snaps n = (.unsupportedMode, 0)) := by
  constructor
  · intro line vals g h
    simp only [parse_threshold_line] at h
    cases hdec : decode_ascii line with
    | none => rw [hdec] at h; exact absurd h (by simp)
    | some bs =>
        rw [hdec] at h
        simp only [] at h
        by_cases hlen : (((pyStrip bs).splitOn 44).filter (fun p => p ≠ [])).length = 1
            ∨ (((pyStrip bs).splitOn 44).filter (fun p => p ≠ [])).length = 64
        · rw [if_pos hlen] at h
          cases hp : pyIntList (((pyStrip bs).splitOn 44).filter (fun p => p ≠ [])) with
          | none => rw [hp] at h; exact absurd h (by simp)
          | some vs =>
              rw [hp] at h
              simp only [Option.map_some', Option.some.injEq, Prod.mk.injEq] at h
              obtain ⟨hv, hg⟩ := h
              subst hv
              have hvlen := pyIntList_length _ _ hp
              rcases hlen with hl | hl
              · left
                refine ⟨by omega, ?_⟩
                rw [← hg, hvlen, hl]
                rfl
              · right
                refine ⟨by omega, ?_⟩
                rw [← hg, hvlen, hl]
                rfl
        · rw [if_neg hlen] at h
          exact absurd h (by simp)
  · intro thRes targets snaps n h
    simp [run_session, h]

/-- C7 witness: the one-field response `"100\n"` is detected as Global, and a
session in Global mode with a restricted square list is rejected with zero
snapshot reads. -/
theorem C7_witness :
    (([100] : List Int).length = 1 ∧ true = true
      ∨ ([100] : List Int).length = 64 ∧ true = false)
    ∧ run_session (.ok ([100], true)) true [0]
        (fun _ => .ok (List.replicate 64 100)) 15 = (.unsupportedMode, 0) :=
  ⟨C7_global_mode_rejects_subset.1 [49, 48, 48, 10] [100] true (by rfl),
   C7_global_mode_rejects_subset.2 (.ok ([100], true)) [0]
     (fun _ => .ok (List.replicate 64 100)) 15 (by rfl)⟩

/-- C9: in a per-channel session restricted to a target list, every channel
index outside the targets is pushed with exactly the threshold the device
reported at session start (`th_vals`); the session-start read degrades to all
zeros when the initial threshold read failed, and would be the reported
global value replicated 64 times had the device reported Global mode. -/
theorem C9_untouched_channels_unchanged :
    (∀ (thRes : Except CalErr (List Int × Bool)) (thVals : List Int)
        (targets : List Nat) (snaps : Nat → Except CalErr (List Int))
        (n : Nat) (out : List Int) (k : Nat),
      detect_mode thRes = (thVals, false) →
      run_session thRes true targets snaps n = (.pushedIndividual out, k) →
      ∀ i, i < 64 → i ∉ targets → out.getD i 0 = thVals.getD i 0)
    ∧ (∀ e, detect_mode (.error e) = (List.replicate 64 0, false))
    ∧ (∀ tv, init_thresholds tv true = List.replicate 64 (tv.headD 0)) := by
  refine ⟨?_, fun e => rfl, fun tv => rfl⟩
  intro thRes thVals targets snaps n out k hdet hrun i hi hnot
  simp only [run_session, hdet, Bool.false_and, Bool.false_eq_true, if_false] at hrun
  rcases h1 : collect snaps 0 n with ⟨c1, k1⟩
  rw [h1] at hrun
  cases c1 with
  | error e => simp at hrun
  | ok base =>
      rcases h2 : collect snaps n targets.length with ⟨c2, k2⟩
      rw [h2] at hrun
      cases c2 with
      | error e => simp at hrun
      | ok caps =>
          simp only [finish_push, init_thresholds, Bool.false_eq_true, if_false,
            if_true, Prod.mk.injEq, Outcome.pushedIndividual.injEq] at hrun
          obtain ⟨hout, hk⟩ := hrun
          rw [← hout, reorder_getD _ i hi]
          exact calibrate_squares_frame targets caps _ thVals i hnot

/-- C9 witness: device thresholds all 7, calibrating only index 3 with
readings of 100 everywhere; the pushed entry at untouched index 5 is its
original 7. -/
theorem C9_witness :
    (List.replicate 3 (7 : Int) ++ 100 :: List.replicate 60 7).getD 5 0
      = (List.replicate 64 (7 : Int)).getD 5 0 :=
  C9_untouched_channels_unchanged.1 (.ok (List.replicate 64 7, false))
    (List.replicate 64 7) [3] (fun _ => .ok (List.replicate 64 100)) 1
    (List.replicate 3 7 ++ 100 :: List.replicate 60 7) 2 (by rfl) (by rfl)
    5 (by norm_num) (by decide)

/-- C1 counterexample: a session whose initial threshold request exhausts its
whole retry budget (a raised `thresholdTimeout`) does not abort — it runs to
completion and pushes thresholds built from the substitute values `[0] * 64`,
refuting "the calibration session aborts rather than continuing with
substitute values" for threshold queries. -/
theorem C1_counterexample :
    run_session (.error .thresholdTimeout) true [0]
        (fun _ => .ok (List.replicate 64 100)) 1
      = (.pushedIndividual (100 :: List.replicate 63 0), 2) := by
  rfl

/-- C1 (amended): a threshold request that exhausts all retries raises the
typed `thresholdTimeout`; a snapshot request that exhausts its retries at
any point of the session — the `j`-th read, whether during baseline
averaging (`j < n`) or during a capture (`n ≤ j`, squares or rank path) —
aborts the session with the typed error it raised; but the session-start
threshold timeout is caught, and the session continues with the substitute
values `([0] * 64, per-channel)` instead of aborting. -/
theorem C1_timeout_exhaustion :
    (∀ attempts : List (List (List Nat)),
        (∀ att ∈ attempts, ∀ l ∈ att, parse_threshold_line l = none) →
        read_thresholds attempts = .error .thresholdTimeout)
    ∧ (∀ (thRes : Except CalErr (List Int × Bool)) (sq : Bool)
          (targets : List Nat) (snaps : Nat → Except CalErr (List Int))
          (n j : Nat) (e : CalErr),
        ¬((detect_mode thRes).2 = true ∧ sq = true) →
        (∀ i, i < j → ∃ v, snaps i = .ok v) →
        snaps j = .error e →
        j < n + (if sq then targets.length else 8) →
        run_session thRes sq targets snaps n = (.aborted e, j + 1))
    ∧ (∀ e, detect_mode (.error e) = (List.replicate 64 0, false)) := by
  refine ⟨read_thresholds_all_malformed, ?_, fun e => rfl⟩
  intro thRes sq targets snaps n j e hmode hok herr hj
  have hand : ((detect_mode thRes).2 && sq) = false := by
    cases hb : (detect_mode thRes).2 <;> cases hs : sq <;> simp_all
  simp only [run_session, hand, Bool.false_eq_true, if_false]
  by_cases hcase : j < n
  · have hc := collect_error_at snaps n 0 j e
      (fun i hi => by rw [Nat.zero_add]; exact hok i hi)
      (by rw [Nat.zero_add]; exact herr) hcase
    simp only [hc]
  · push_neg at hcase
    obtain ⟨vs, hbase⟩ := collect_ok_full snaps n 0
      (fun i hi => by rw [Nat.zero_add]; exact hok i (by omega))
    cases sq with
    | true =>
        simp only [eq_self_iff_true, if_true] at hj
        have hc2 := collect_error_at snaps targets.length n (j - n) e
          (fun i hi => hok (n + i) (by omega))
          (by
            have heq : n + (j - n) = j := by omega
            rw [heq]
            exact herr)
          (by omega)
        simp only [hbase, eq_self_iff_true, if_true, hc2]
        have harith : n + (j - n + 1) = j + 1 := by omega
        simp only [harith]
    | false =>
        simp only [Bool.false_eq_true, if_false] at hj
        have hc2 := collect_error_at snaps 8 n (j - n) e
          (fun i hi => hok (n + i) (by omega))
          (by
            have heq : n + (j - n) = j := by omega
            rw [heq]
            exact herr)
          (by omega)
        simp only [hbase, Bool.false_eq_true, if_false, hc2]
        have harith : n + (j - n + 1) = j + 1 := by omega
        simp only [harith]

/-- C1 witness: an all-malformed retry budget for the threshold query raises
the typed timeout; a capture-phase snapshot timeout (read 1, after a
successful baseline read) aborts a squares-path session after two reads; and
a baseline-phase snapshot timeout (read 0) aborts a rank-path session after
one read. -/
theorem C1_witness :
    read_thresholds [[[97]], [], []] = .error .thresholdTimeout
    ∧ run_session (.ok (List.replicate 64 7, false)) true [0]
        (fun i => if i = 0 then .ok (List.replicate 64 100)
          else .error .snapshotTimeout) 1
      = (.aborted .snapshotTimeout, 2)
    ∧ run_session (.ok ([5], true)) false []
        (fun _ => .error .snapshotTimeout) 15 = (.aborted .snapshotTimeout, 1) :=
  ⟨C1_timeout_exhaustion.1 [[[97]], [], []] (by decide),
   C1_timeout_exhaustion.2.1 (.ok (List.replicate 64 7, false)) true [0]
     (fun i => if i = 0 then .ok (List.replicate 64 100)
       else .error .snapshotTimeout) 1 1 .snapshotTimeout (by decide)
     (fun i hi => by
       interval_cases i
       exact ⟨List.replicate 64 100, rfl⟩)
     (by rfl) (by decide),
   C1_timeout_exhaustion.2.1 (.ok ([5], true)) false []
     (fun _ => .error .snapshotTimeout) 15 0 .snapshotTimeout (by simp)
     (fun i hi => absurd hi (by omega)) rfl (by decide)⟩
